import Mathlib

/-!
Verification of the menu-construction module (src/src/menu.ts) of the
TuneTrunk desktop application. The module builds a declarative menu tree
from the current configuration, the plugin registry and the localization
state, and wires click handlers that mutate configuration and emit
side effects (dialogs, menu refreshes, window operations).

The embedding below translates the source file into Lean: the menu tree
is a first-order datatype, click handlers are deep-embedded as a small
datatype of click actions whose semantics is given by runClick, and the
externally owned state (configuration store, single-instance lock) is an
explicit record threaded through the semantics. Dialog and prompt results
are supplied through a DialogEnv record, mirroring the awaited results of
showOpenDialog and the text prompt.
-/

namespace TuneTrunk

/-- Platform discriminator, mirroring the electron-is checks is.windows(),
is.linux(), is.macOS() and process.platform used by the source. -/
inductive Platform where
  | windows
  | linux
  | macOS
  | other
deriving DecidableEq, Repr

/-- Boolean configuration paths under options.* that are two-way bound to a
checkbox somewhere in the menu. Each constructor names the dotted path used
by the source (options.autoUpdates and so on). -/
inductive BoolPath where
  | autoUpdates
  | resumeOnStart
  | removeUpgradeButton
  | alwaysOnTop
  | hideMenu
  | startAtLogin
  | trayClickPlayPause
  | overrideUserAgent
  | disableHardwareAcceleration
  | restartOnConfigChanges
  | autoResetAppCache
deriving DecidableEq, Repr

/-- The slice of the persistent configuration store read or written by
menu.ts. Option-valued fields model configuration paths whose value can be
absent (undefined in the source); the source reads options.themes with an
optional-chaining length access and compares options.language with ===,
so both are modelled as Option. Plugin enablement is the set of enabled
plugin identifiers, accessed through config.plugins.isEnabled / enable /
disable. -/
structure Config where
  autoUpdates : Bool
  resumeOnStart : Bool
  startingPage : String
  removeUpgradeButton : Bool
  likeButtons : String
  themes : Option (List String)
  alwaysOnTop : Bool
  hideMenu : Bool
  hideMenuWarned : Bool
  startAtLogin : Bool
  tray : Bool
  appVisible : Bool
  trayClickPlayPause : Bool
  language : Option String
  overrideUserAgent : Bool
  disableHardwareAcceleration : Bool
  restartOnConfigChanges : Bool
  autoResetAppCache : Bool
  proxy : String
  enabledPlugins : List String
deriving DecidableEq, Repr

/-- config.plugins.isEnabled. -/
def Config.pluginIsEnabled (c : Config) (id : String) : Bool :=
  c.enabledPlugins.contains id

/-- config.plugins.enable. -/
def Config.pluginEnable (c : Config) (id : String) : Config :=
  if c.enabledPlugins.contains id then c
  else { c with enabledPlugins := id :: c.enabledPlugins }

/-- config.plugins.disable. -/
def Config.pluginDisable (c : Config) (id : String) : Config :=
  { c with enabledPlugins := c.enabledPlugins.filter (fun p => p != id) }

/-- Read of a boolean configuration path. -/
def Config.getBool (c : Config) : BoolPath → Bool
  | .autoUpdates => c.autoUpdates
  | .resumeOnStart => c.resumeOnStart
  | .removeUpgradeButton => c.removeUpgradeButton
  | .alwaysOnTop => c.alwaysOnTop
  | .hideMenu => c.hideMenu
  | .startAtLogin => c.startAtLogin
  | .trayClickPlayPause => c.trayClickPlayPause
  | .overrideUserAgent => c.overrideUserAgent
  | .disableHardwareAcceleration => c.disableHardwareAcceleration
  | .restartOnConfigChanges => c.restartOnConfigChanges
  | .autoResetAppCache => c.autoResetAppCache

/-- Write of a boolean configuration path, the common core of
config.setMenuOption on a boolean value. -/
def Config.setBool (c : Config) (p : BoolPath) (b : Bool) : Config :=
  match p with
  | .autoUpdates => { c with autoUpdates := b }
  | .resumeOnStart => { c with resumeOnStart := b }
  | .removeUpgradeButton => { c with removeUpgradeButton := b }
  | .alwaysOnTop => { c with alwaysOnTop := b }
  | .hideMenu => { c with hideMenu := b }
  | .startAtLogin => { c with startAtLogin := b }
  | .trayClickPlayPause => { c with trayClickPlayPause := b }
  | .overrideUserAgent => { c with overrideUserAgent := b }
  | .disableHardwareAcceleration => { c with disableHardwareAcceleration := b }
  | .restartOnConfigChanges => { c with restartOnConfigChanges := b }
  | .autoResetAppCache => { c with autoResetAppCache := b }

/-- Deep embedding of the click handlers installed by menu.ts. Each
constructor corresponds to one handler closure in the source; runClick
below gives each one the semantics transliterated from the handler body. -/
inductive Click where
  /-- Handler built by pluginEnabledMenu: enable or disable the plugin per
  item.checked, then refresh the menu when hasSubmenu and a refresh
  callback were supplied. -/
  | pluginEnabled (plugin : String) (hasSubmenu : Bool) (hasRefresh : Bool)
  /-- Plain config.setMenuOption(path, item.checked) handler. -/
  | setMenuOptionBool (path : BoolPath)
  /-- Handler of a starting-page radio item: config.set(options.startingPage, name). -/
  | startingPageSet (name : String)
  /-- Handler of a like-buttons radio item: config.set(options.likeButtons, value). -/
  | likeButtonsSet (value : String)
  /-- Handler of the no-theme radio item: config.set(options.themes, []). -/
  | noTheme
  /-- Handler of the import-css-file item: await showOpenDialog, then
  config.set(options.themes, filePaths) when filePaths is truthy. -/
  | importCssFile
  /-- Handler of the single-instance-lock checkbox: release or request the
  process-wide lock; no configuration path is touched. -/
  | singleInstanceLockClick
  /-- Handler of the always-on-top checkbox: setMenuOption plus
  win.setAlwaysOnTop(item.checked). -/
  | alwaysOnTopClick
  /-- Handler of the hide-menu checkbox: setMenuOption plus a message box
  when enabling while options.hideMenuWarned is unset. -/
  | hideMenuClick
  /-- Handler of a tray radio item: two setMenuOption writes. -/
  | traySet (tray : Bool) (appVisible : Bool)
  /-- Handler of a language item: setMenuOption(options.language, lang),
  refreshMenu, setLanguage, message box. -/
  | languageSelect (lang : String)
  /-- Handler of the set-proxy item: await the text prompt, then persist or
  revert per the setProxy function of the source. -/
  | setProxyClick
  /-- Handler of the edit-config-json item: config.edit(). -/
  | editConfig
  /-- Handlers that only touch external collaborators (dev tools toggle,
  navigation, clipboard, restart); tagged by what they invoke. -/
  | hostAction (tag : String)
deriving DecidableEq, Repr

/-- Menu item kinds as they appear in the Electron template objects built
by the source: type separator, type checkbox, type radio, type normal
(also the default when no type is given), a submenu entry, and a
role-delegated entry. -/
inductive ItemType where
  | separator
  | checkbox
  | radio
  | normal
  | submenu
  | roleDelegated
deriving DecidableEq, Repr

/-- Declarative menu tree node, one constructor per shape of template
object occurring in menu.ts: a separator, a checkbox with label, checked
state and click handler, a radio likewise, a normal item with optional
click handler, a submenu with children, and a role item with optional
accelerator. -/
inductive MenuItem where
  | separator : MenuItem
  | checkboxItem (label : String) (checked : Bool) (click : Click) : MenuItem
  | radioItem (label : String) (checked : Bool) (click : Click) : MenuItem
  | normalItem (label : String) (click : Option Click) : MenuItem
  | submenuItem (label : String) (children : List MenuItem) : MenuItem
  | roleItem (role : String) (accelerator : Option String) : MenuItem

/-- Kind of a menu item. -/
def MenuItem.itemType : MenuItem → ItemType
  | .separator => .separator
  | .checkboxItem _ _ _ => .checkbox
  | .radioItem _ _ _ => .radio
  | .normalItem _ _ => .normal
  | .submenuItem _ _ => .submenu
  | .roleItem _ _ => .roleDelegated

/-- True for a wrapper submenu entry. -/
def MenuItem.isSubmenu : MenuItem → Bool
  | .submenuItem _ _ => true
  | _ => false

/-- True for a radio item. -/
def MenuItem.isRadio : MenuItem → Bool
  | .radioItem _ _ _ => true
  | _ => false

/-- True for a checked radio item; used to count the checked items of a
mutually exclusive group. -/
def isCheckedRadio : MenuItem → Bool
  | .radioItem _ c _ => c
  | _ => false

/-- True for a checked checkbox item. -/
def isCheckedCheckbox : MenuItem → Bool
  | .checkboxItem _ c _ => c
  | _ => false

/-- Number of checked radio items in a group. -/
def checkedRadioCount (l : List MenuItem) : Nat :=
  l.countP isCheckedRadio

/-- Number of checked checkbox items in a group. -/
def checkedCheckboxCount (l : List MenuItem) : Nat :=
  l.countP isCheckedCheckbox

/-- Modelled from the spec: the localization resolver t maps a key path to
a localized string for the active language (the resolver lives in the i18n
module, outside the sources under verification). Its output is opaque to
every claim, so it is modelled as the identity on key paths. -/
def t (key : String) : String := key

/-- Language bundle metadata read by the source as
languageResources[lang].translation.language.name and
languageResources[lang].translation.language[local-name]. -/
structure LangInfo where
  name : String
  localName : String
deriving DecidableEq, Repr

/-- External inputs of one build: the platform, the plugin registry
allPlugins (identifier to optional display name), the per-plugin
contributed menu fragments returned by getAllMenuTemplate after
loadAllMenuPlugins, the language bundles, and the known starting pages.
The contributed-fragment map is modelled from the spec: the plugin loader
supplies an optional menu-contribution template per plugin, so exactly the
plugins that registered a contribution appear as keys. -/
structure BuildEnv where
  platform : Platform
  allPlugins : List (String × Option String)
  menuTemplates : List (String × List MenuItem)
  languageResources : List (String × LangInfo)
  startingPages : List String

/-- Display name of a plugin: allPlugins[id]?.name ?? id. -/
def pluginDisplayName (env : BuildEnv) (id : String) : String :=
  match env.allPlugins.lookup id with
  | some (some n) => n
  | _ => id

/-- Transliteration of the pluginEnabledMenu helper: a checkbox labelled
label || plugin, checked iff the plugin is enabled, whose click handler
toggles enablement and refreshes the menu when hasSubmenu holds and a
refresh callback was supplied. -/
def pluginEnabledMenu (cfg : Config) (plugin : String) (label : String)
    (hasSubmenu : Bool) (hasRefresh : Bool) : MenuItem :=
  .checkboxItem (if label == "" then plugin else label)
    (cfg.pluginIsEnabled plugin)
    (.pluginEnabled plugin hasSubmenu hasRefresh)

/-- Body of the map over the entries of getAllMenuTemplate. A disabled
plugin maps to a bare enablement checkbox; an enabled one maps to a
submenu holding the enabled checkbox, a separator, and the contributed
template. Every construction site passes hasSubmenu = true and the
innerRefreshMenu callback. -/
def menuResultEntry (env : BuildEnv) (cfg : Config)
    (p : String × List MenuItem) : String × MenuItem :=
  let id := p.1
  let template := p.2
  let pluginLabel := pluginDisplayName env id
  if ¬ cfg.pluginIsEnabled id then
    (id, pluginEnabledMenu cfg id pluginLabel true true)
  else
    (id, .submenuItem pluginLabel
      (pluginEnabledMenu cfg id (t "main.menu.plugins.enabled") true true
        :: .separator :: template))

/-- Transliteration of the menuResult array: one pair per entry of
getAllMenuTemplate. -/
def menuResultOf (env : BuildEnv) (cfg : Config) : List (String × MenuItem) :=
  env.menuTemplates.map (menuResultEntry env cfg)

/-- Body of the map over the sorted plugin identifiers: reuse the
precomputed entry from menuResult when the plugin contributed a template,
otherwise fall back to a bare enablement checkbox (again with
hasSubmenu = true and the refresh callback). -/
def pluginEntryFor (env : BuildEnv) (cfg : Config) (id : String) : MenuItem :=
  match (menuResultOf env cfg).find? (fun it => it.1 == id) with
  | some p => p.2
  | none => pluginEnabledMenu cfg id (pluginDisplayName env id) true true

/-- Case folding of one character code: an ASCII capital letter maps to
its lowercase code, everything else is unchanged. -/
def lowerCode (c : Char) : Nat :=
  if 65 ≤ c.toNat ∧ c.toNat ≤ 90 then c.toNat + 32 else c.toNat

/-- Case-insensitive collation key of a string: its character codes after
case folding. -/
def ciKey (s : String) : List Nat := s.data.map lowerCode

/-- Raw collation key of a string: its character codes. -/
def rawKey (s : String) : List Nat := s.data.map Char.toNat

/-- Lexicographic strict order on code sequences. -/
def natListLt : List Nat → List Nat → Bool
  | [], [] => false
  | [], _ :: _ => true
  | _ :: _, [] => false
  | a :: as, b :: bs => if a < b then true else if b < a then false else natListLt as bs

/-- Model of the default-locale String.prototype.localeCompare used as the
sort comparator: the primary comparison ignores letter case and equal
primary keys fall back to the raw character codes, matching the
case-insensitive-first collation of the default locale on the plain
identifiers and names involved. -/
def localeCompare (a b : String) : Int :=
  if natListLt (ciKey a) (ciKey b) then -1
  else if natListLt (ciKey b) (ciKey a) then 1
  else if natListLt (rawKey a) (rawKey b) then -1
  else if natListLt (rawKey b) (rawKey a) then 1
  else 0

/-- Boolean comparator derived from localeCompare, ordering a before b when
the comparator is nonpositive; this is the order realized by the stable
Array.prototype.sort of the source. -/
def lcLe (a b : String) : Bool :=
  decide (localeCompare a b ≤ 0)

/-- Insertion step of a stable insertion sort with a Boolean comparator,
modelling the stable Array.prototype.sort(comparator) of the source. -/
def insertBy {α : Type} (le : α → α → Bool) (x : α) : List α → List α
  | [] => [x]
  | y :: ys => if le x y then x :: y :: ys else y :: insertBy le x ys

/-- Stable insertion sort with a Boolean comparator. -/
def sortBy {α : Type} (le : α → α → Bool) : List α → List α
  | [] => []
  | x :: xs => insertBy le x (sortBy le xs)

/-- Transliteration of the pluginMenus value: the keys of allPlugins,
sorted by display name with localeCompare, each mapped to its entry. -/
def pluginMenusOf (env : BuildEnv) (cfg : Config) : List MenuItem :=
  (sortBy
      (fun a b => lcLe (pluginDisplayName env a) (pluginDisplayName env b))
      (env.allPlugins.map Prod.fst)).map
    (pluginEntryFor env cfg)

/-- Starting-page submenu: the unset radio item prepended (unshift in the
source) to one radio item per known starting page. -/
def startingPageSubmenu (env : BuildEnv) (cfg : Config) : List MenuItem :=
  .radioItem (t "main.menu.options.submenu.starting-page.unset")
      (cfg.startingPage == "") (.startingPageSet "")
    :: env.startingPages.map fun name =>
        .radioItem name (cfg.startingPage == name) (.startingPageSet name)

/-- Like-buttons submenu. The default item is checked when
options.likeButtons is falsy, which for the string-valued option means the
empty string. -/
def likeButtonsSubmenu (cfg : Config) : List MenuItem :=
  [ .radioItem (t "main.menu.options.submenu.visual-tweaks.submenu.like-buttons.default")
      (cfg.likeButtons == "") (.likeButtonsSet ""),
    .radioItem (t "main.menu.options.submenu.visual-tweaks.submenu.like-buttons.force-show")
      (cfg.likeButtons == "force") (.likeButtonsSet "force"),
    .radioItem (t "main.menu.options.submenu.visual-tweaks.submenu.like-buttons.hide")
      (cfg.likeButtons == "hide") (.likeButtonsSet "hide") ]

/-- Theme submenu: the no-theme radio item, checked when
options.themes?.length === 0, a separator, and the import-css-file item of
type normal whose handler opens the file picker. -/
def themeSubmenu (cfg : Config) : List MenuItem :=
  [ .radioItem (t "main.menu.options.submenu.visual-tweaks.submenu.theme.submenu.no-theme")
      (cfg.themes.map List.length == some 0) .noTheme,
    .separator,
    .normalItem (t "main.menu.options.submenu.visual-tweaks.submenu.theme.submenu.import-css-file")
      (some .importCssFile) ]

/-- Visual-tweaks submenu: remove-upgrade-button checkbox, like-buttons
submenu, theme submenu. -/
def visualTweaksSubmenu (cfg : Config) : List MenuItem :=
  [ .checkboxItem (t "main.menu.options.submenu.visual-tweaks.submenu.remove-upgrade-button")
      cfg.removeUpgradeButton (.setMenuOptionBool .removeUpgradeButton),
    .submenuItem (t "main.menu.options.submenu.visual-tweaks.submenu.like-buttons.label")
      (likeButtonsSubmenu cfg),
    .submenuItem (t "main.menu.options.submenu.visual-tweaks.submenu.theme.label")
      (themeSubmenu cfg) ]

/-- Tray submenu: three mutually exclusive radio items over the two
configuration keys options.tray and options.appVisible, a separator, and
the play-pause-on-click checkbox. -/
def traySubmenu (cfg : Config) : List MenuItem :=
  [ .radioItem (t "main.menu.options.submenu.tray.submenu.disabled")
      (!cfg.tray) (.traySet false true),
    .radioItem (t "main.menu.options.submenu.tray.submenu.enabled-and-show-app")
      (cfg.tray && cfg.appVisible) (.traySet true true),
    .radioItem (t "main.menu.options.submenu.tray.submenu.enabled-and-hide-app")
      (cfg.tray && !cfg.appVisible) (.traySet true false),
    .separator,
    .checkboxItem (t "main.menu.options.submenu.tray.submenu.play-pause-on-click")
      cfg.trayClickPlayPause (.setMenuOptionBool .trayClickPlayPause) ]

/-- Label of a language item: name followed by the local name in
parentheses. -/
def languageLabel (li : LangInfo) : String :=
  li.name ++ " (" ++ li.localName ++ ")"

/-- Language submenu: one item per available language bundle, declared
with type checkbox in the source, checked when options.language === lang.
Object.keys iteration is modelled as iteration over the entry list. -/
def languageSubmenu (env : BuildEnv) (cfg : Config) : List MenuItem :=
  env.languageResources.map fun p =>
    .checkboxItem (languageLabel p.2) (cfg.language == some p.1)
      (.languageSelect p.1)

/-- Advanced-options submenu: set-proxy (type normal), four checkboxes,
separator, dev-tools toggle (manual handler on macOS, role elsewhere), and
edit-config-json. -/
def advancedSubmenu (env : BuildEnv) (cfg : Config) : List MenuItem :=
  [ .normalItem (t "main.menu.options.submenu.advanced-options.submenu.set-proxy.label")
      (some .setProxyClick),
    .checkboxItem (t "main.menu.options.submenu.advanced-options.submenu.override-user-agent")
      cfg.overrideUserAgent (.setMenuOptionBool .overrideUserAgent),
    .checkboxItem (t "main.menu.options.submenu.advanced-options.submenu.disable-hardware-acceleration")
      cfg.disableHardwareAcceleration (.setMenuOptionBool .disableHardwareAcceleration),
    .checkboxItem (t "main.menu.options.submenu.advanced-options.submenu.restart-on-config-changes")
      cfg.restartOnConfigChanges (.setMenuOptionBool .restartOnConfigChanges),
    .checkboxItem (t "main.menu.options.submenu.advanced-options.submenu.auto-reset-app-cache")
      cfg.autoResetAppCache (.setMenuOptionBool .autoResetAppCache),
    .separator,
    (if env.platform == .macOS then
      .normalItem (t "main.menu.options.submenu.advanced-options.submenu.toggle-dev-tools")
        (some (.hostAction "toggleDevTools"))
     else .roleItem "toggleDevTools" none),
    .normalItem (t "main.menu.options.submenu.advanced-options.submenu.edit-config-json")
      (some .editConfig) ]

/-- True when the hide-menu checkbox is spliced into the options group:
is.windows() || is.linux(). -/
def hideMenuIncluded (p : Platform) : Bool :=
  p == .windows || p == .linux

/-- True when the start-at-login checkbox is spliced into the options
group: is.windows() || is.macOS(). -/
def startAtLoginIncluded (p : Platform) : Bool :=
  p == .windows || p == .macOS

/-- Options group, transliterated item by item, with the two
platform-conditional array splices of the source. -/
def optionsSubmenu (env : BuildEnv) (cfg : Config) : List MenuItem :=
  [ .checkboxItem (t "main.menu.options.submenu.auto-update")
      cfg.autoUpdates (.setMenuOptionBool .autoUpdates),
    .checkboxItem (t "main.menu.options.submenu.resume-on-start")
      cfg.resumeOnStart (.setMenuOptionBool .resumeOnStart),
    .submenuItem (t "main.menu.options.submenu.starting-page.label")
      (startingPageSubmenu env cfg),
    .submenuItem (t "main.menu.options.submenu.visual-tweaks.label")
      (visualTweaksSubmenu cfg),
    .checkboxItem (t "main.menu.options.submenu.single-instance-lock")
      true .singleInstanceLockClick,
    .checkboxItem (t "main.menu.options.submenu.always-on-top")
      cfg.alwaysOnTop .alwaysOnTopClick ]
  ++ (if hideMenuIncluded env.platform then
        [ .checkboxItem (t "main.menu.options.submenu.hide-menu.label")
            cfg.hideMenu .hideMenuClick ]
      else [])
  ++ (if startAtLoginIncluded env.platform then
        [ .checkboxItem (t "main.menu.options.submenu.start-at-login")
            cfg.startAtLogin (.setMenuOptionBool .startAtLogin) ]
      else [])
  ++ [ .submenuItem (t "main.menu.options.submenu.tray.label") (traySubmenu cfg),
       .submenuItem (t "main.menu.options.submenu.language.label")
         (languageSubmenu env cfg),
       .separator,
       .submenuItem (t "main.menu.options.submenu.advanced-options.label")
         (advancedSubmenu env cfg) ]

/-- View group: role delegations with the platform-specific zoom
accelerators. -/
def viewSubmenu (env : BuildEnv) : List MenuItem :=
  [ .roleItem "reload" none,
    .roleItem "forceReload" none,
    .separator,
    .roleItem "zoomIn" (some (if env.platform == .macOS then "Cmd+I" else "Ctrl+I")),
    .roleItem "zoomOut" (some (if env.platform == .macOS then "Cmd+O" else "Ctrl+O")),
    .roleItem "resetZoom" none,
    .separator,
    .roleItem "togglefullscreen" none ]

/-- Navigation group. -/
def navigationSubmenu : List MenuItem :=
  [ .normalItem (t "main.menu.navigation.submenu.go-back") (some (.hostAction "goBack")),
    .normalItem (t "main.menu.navigation.submenu.go-forward") (some (.hostAction "goForward")),
    .normalItem (t "main.menu.navigation.submenu.copy-current-url") (some (.hostAction "copyCurrentUrl")),
    .normalItem (t "main.menu.navigation.submenu.restart") (some (.hostAction "restart")),
    .roleItem "quit" none ]

/-- Transliteration of mainMenuTemplate: the five top-level groups. -/
def mainMenuTemplate (env : BuildEnv) (cfg : Config) : List MenuItem :=
  [ .submenuItem (t "main.menu.plugins.label") (pluginMenusOf env cfg),
    .submenuItem (t "main.menu.options.label") (optionsSubmenu env cfg),
    .submenuItem (t "main.menu.view.label") (viewSubmenu env),
    .submenuItem (t "main.menu.navigation.label") navigationSubmenu,
    .submenuItem (t "main.menu.about") [ .roleItem "about" none ] ]

/-- Transliteration of setApplicationMenu: on darwin a fixed application
submenu is prepended ahead of the builder output. -/
def setApplicationMenuTemplate (env : BuildEnv) (cfg : Config) (appName : String) :
    List MenuItem :=
  if env.platform == .macOS then
    .submenuItem appName
      [ .roleItem "about" none, .separator,
        .roleItem "hide" none, .roleItem "hideOthers" none, .roleItem "unhide" none,
        .separator,
        .roleItem "selectAll" none, .roleItem "cut" none, .roleItem "copy" none,
        .roleItem "paste" none, .separator,
        .roleItem "minimize" none, .roleItem "close" none, .roleItem "quit" none ]
      :: mainMenuTemplate env cfg
  else mainMenuTemplate env cfg

/-- Externally observable side effects emitted by the click handlers, in
program order: menu refresh, native message box, language resolver reload,
open-file dialog, text prompt, window always-on-top update, config editor,
and the remaining external collaborator calls. -/
inductive Event where
  | refreshMenuEv
  | messageBoxEv
  | setLanguageEv (lang : String)
  | openDialogEv
  | promptEv
  | setAlwaysOnTopEv (v : Bool)
  | configEditEv
  | hostActionEv (tag : String)
deriving DecidableEq, Repr

/-- Mutable state owned outside the menu builder that the handlers touch:
the configuration store and the process-wide single-instance lock
(app.hasSingleInstanceLock). -/
structure AppState where
  config : Config
  hasSingleInstanceLock : Bool
deriving DecidableEq, Repr

/-- Results of the two awaited dialog surfaces: the file paths returned by
dialog.showOpenDialog (always an array; empty when the picker is
cancelled) and the text-prompt outcome (none models the null returned on
cancel). -/
structure DialogEnv where
  openDialogFilePaths : List String
  promptResult : Option String
deriving DecidableEq, Repr

/-- Truthiness of a JavaScript array value: every array object is truthy,
including the empty array, so the source guard if (filePaths) never
fails. -/
def jsTruthyArray (_ : List String) : Bool := true

/-- Transliteration of the setProxy function: a string result is persisted
to options.proxy and item.checked is set to output !== an empty string; a
cancelled prompt persists nothing and sets item.checked to its own
negation. Returns the new configuration and the new item.checked. -/
def setProxy (output : Option String) (itemChecked : Bool) (cfg : Config) :
    Config × Bool :=
  match output with
  | some out => ({ cfg with proxy := out }, out != "")
  | none => (cfg, !itemChecked)

/-- Semantics of each click handler, transliterated from the corresponding
handler body in the source. Arguments: the dialog results, the handler
tag, the value of item.checked observed by the handler, and the current
external state. Returns the new state, the value of item.checked after the
handler (only setProxy writes it), and the emitted events in program
order. -/
def runClick (denv : DialogEnv) (c : Click) (itemChecked : Bool)
    (s : AppState) : AppState × Bool × List Event :=
  match c with
  | .pluginEnabled plugin hasSubmenu hasRefresh =>
      let cfg :=
        if itemChecked then s.config.pluginEnable plugin
        else s.config.pluginDisable plugin
      ({ s with config := cfg }, itemChecked,
        if hasSubmenu && hasRefresh then [.refreshMenuEv] else [])
  | .setMenuOptionBool p =>
      ({ s with config := s.config.setBool p itemChecked }, itemChecked, [])
  | .startingPageSet name =>
      ({ s with config := { s.config with startingPage := name } }, itemChecked, [])
  | .likeButtonsSet v =>
      ({ s with config := { s.config with likeButtons := v } }, itemChecked, [])
  | .noTheme =>
      ({ s with config := { s.config with themes := some [] } }, itemChecked, [])
  | .importCssFile =>
      let filePaths := denv.openDialogFilePaths
      let cfg :=
        if jsTruthyArray filePaths then { s.config with themes := some filePaths }
        else s.config
      ({ s with config := cfg }, itemChecked, [.openDialogEv])
  | .singleInstanceLockClick =>
      let lock :=
        if !itemChecked && s.hasSingleInstanceLock then false
        else if itemChecked && !s.hasSingleInstanceLock then true
        else s.hasSingleInstanceLock
      ({ s with hasSingleInstanceLock := lock }, itemChecked, [])
  | .alwaysOnTopClick =>
      ({ s with config := s.config.setBool .alwaysOnTop itemChecked },
        itemChecked, [.setAlwaysOnTopEv itemChecked])
  | .hideMenuClick =>
      let cfg := s.config.setBool .hideMenu itemChecked
      ({ s with config := cfg }, itemChecked,
        if itemChecked && !cfg.hideMenuWarned then [.messageBoxEv] else [])
  | .traySet tray appVisible =>
      ({ s with config := { s.config with tray := tray, appVisible := appVisible } },
        itemChecked, [])
  | .languageSelect lang =>
      ({ s with config := { s.config with language := some lang } }, itemChecked,
        [.refreshMenuEv, .setLanguageEv lang, .messageBoxEv])
  | .setProxyClick =>
      let r := setProxy denv.promptResult itemChecked s.config
      ({ s with config := r.1 }, r.2, [.promptEv])
  | .editConfig =>
      (s, itemChecked, [.configEditEv])
  | .hostAction tag =>
      (s, itemChecked, [.hostActionEv tag])

/-- Value of item.checked that the click handler observes when the user
activates the item, per the host toolkit semantics: a checkbox item is
toggled before its click handler runs, a radio item is set to checked, and
every other kind keeps its current checked value (which starts false when
the template omits it). -/
def checkedAfterUserClick : ItemType → Bool → Bool
  | .checkbox, prior => !prior
  | .radio, _ => true
  | _, prior => prior

/-- One user activation of the hide-menu checkbox: the pair carries the
external state and the checked state of the live menu item; the result
carries the successor pair and the events emitted by the handler. -/
def clickHideMenuItem (denv : DialogEnv) (p : AppState × Bool) :
    (AppState × Bool) × List Event :=
  let c := checkedAfterUserClick .checkbox p.2
  let r := runClick denv .hideMenuClick c p.1
  ((r.1, r.2.1), r.2.2)

/-- Enablement-toggle checkbox of a plugin entry in the Plugins group:
the entry itself when it is a bare checkbox, or the first child of its
wrapper submenu. -/
def entryToggleClick : MenuItem → Option Click
  | .checkboxItem _ _ c => some c
  | .submenuItem _ (.checkboxItem _ _ c :: _) => some c
  | _ => none

/-- Plugin identifier carried by the enablement checkbox of a Plugins
group entry. -/
def entryPluginId (e : MenuItem) : Option String :=
  match entryToggleClick e with
  | some (.pluginEnabled id _ _) => some id
  | _ => none

/-- Case-insensitive collation order on display names: a comes at or
before b when b does not strictly precede a on the case-folded keys. -/
def ciLe (a b : String) : Prop :=
  natListLt (ciKey b) (ciKey a) = false

/-- Child j of the submenu entry at position i of a group. -/
def childAt (l : List MenuItem) (i j : Nat) : Option MenuItem :=
  match l[i]? with
  | some (.submenuItem _ cs) => cs[j]?
  | _ => none

/-- Label key of the checkbox bound to a boolean configuration path. -/
def boundLabel : BoolPath → String
  | .autoUpdates => t "main.menu.options.submenu.auto-update"
  | .resumeOnStart => t "main.menu.options.submenu.resume-on-start"
  | .removeUpgradeButton => t "main.menu.options.submenu.visual-tweaks.submenu.remove-upgrade-button"
  | .alwaysOnTop => t "main.menu.options.submenu.always-on-top"
  | .hideMenu => t "main.menu.options.submenu.hide-menu.label"
  | .startAtLogin => t "main.menu.options.submenu.start-at-login"
  | .trayClickPlayPause => t "main.menu.options.submenu.tray.submenu.play-pause-on-click"
  | .overrideUserAgent => t "main.menu.options.submenu.advanced-options.submenu.override-user-agent"
  | .disableHardwareAcceleration => t "main.menu.options.submenu.advanced-options.submenu.disable-hardware-acceleration"
  | .restartOnConfigChanges => t "main.menu.options.submenu.advanced-options.submenu.restart-on-config-changes"
  | .autoResetAppCache => t "main.menu.options.submenu.advanced-options.submenu.auto-reset-app-cache"

/-- Click handler installed on the checkbox bound to a boolean
configuration path: a plain setMenuOption handler except for the two paths
whose handlers carry an extra side effect. -/
def clickOfBool : BoolPath → Click
  | .alwaysOnTop => .alwaysOnTopClick
  | .hideMenu => .hideMenuClick
  | p => .setMenuOptionBool p

/-- True when the checkbox bound to the path is present on the platform
(the hide-menu and start-at-login checkboxes are platform-conditional). -/
def boundAdmissible (pl : Platform) : BoolPath → Bool
  | .hideMenu => hideMenuIncluded pl
  | .startAtLogin => startAtLoginIncluded pl
  | _ => true

/-- Number of platform-conditional checkboxes spliced into the options
group ahead of the tray entry. -/
def spliceOffset (pl : Platform) : Nat :=
  (if hideMenuIncluded pl then 1 else 0)
    + (if startAtLoginIncluded pl then 1 else 0)

/-- Position, in the built options group, of the checkbox bound to a
boolean configuration path. -/
def boundCheckboxItem (env : BuildEnv) (cfg : Config) : BoolPath → Option MenuItem
  | .autoUpdates => (optionsSubmenu env cfg)[0]?
  | .resumeOnStart => (optionsSubmenu env cfg)[1]?
  | .removeUpgradeButton => childAt (optionsSubmenu env cfg) 3 0
  | .alwaysOnTop => (optionsSubmenu env cfg)[5]?
  | .hideMenu =>
      if hideMenuIncluded env.platform then (optionsSubmenu env cfg)[6]? else none
  | .startAtLogin =>
      if startAtLoginIncluded env.platform then
        (optionsSubmenu env cfg)[6 + (if hideMenuIncluded env.platform then 1 else 0)]?
      else none
  | .trayClickPlayPause => childAt (optionsSubmenu env cfg) (6 + spliceOffset env.platform) 4
  | .overrideUserAgent => childAt (optionsSubmenu env cfg) (9 + spliceOffset env.platform) 1
  | .disableHardwareAcceleration => childAt (optionsSubmenu env cfg) (9 + spliceOffset env.platform) 2
  | .restartOnConfigChanges => childAt (optionsSubmenu env cfg) (9 + spliceOffset env.platform) 3
  | .autoResetAppCache => childAt (optionsSubmenu env cfg) (9 + spliceOffset env.platform) 4

/-- Sample configuration: every boolean option off, string options empty or
absent, no theme files, no enabled plugins. -/
def cfg0 : Config :=
  { autoUpdates := false, resumeOnStart := false, startingPage := "",
    removeUpgradeButton := false, likeButtons := "", themes := some [],
    alwaysOnTop := false, hideMenu := false, hideMenuWarned := false,
    startAtLogin := false, tray := false, appVisible := true,
    trayClickPlayPause := false, language := none, overrideUserAgent := false,
    disableHardwareAcceleration := false, restartOnConfigChanges := false,
    autoResetAppCache := false, proxy := "", enabledPlugins := [] }

/-- Sample external state: default configuration, single-instance lock
held (the application acquires it at startup). -/
def st0 : AppState :=
  { config := cfg0, hasSingleInstanceLock := true }

/-- Dialog environment of a user who cancels everything: the open-file
dialog resolves with an empty file-path array and the prompt with null. -/
def denv0 : DialogEnv :=
  { openDialogFilePaths := [], promptResult := none }

/-- Minimal build environment: linux, no plugins, no language bundles. -/
def env0 : BuildEnv :=
  { platform := .linux, allPlugins := [], menuTemplates := [],
    languageResources := [], startingPages := [] }

/-- Build environment with one starting page and one language bundle, on
windows so that every platform-conditional checkbox is present. -/
def envW : BuildEnv :=
  { platform := .windows, allPlugins := [], menuTemplates := [],
    languageResources := [("en", { name := "English", localName := "English" })],
    startingPages := ["home"] }

/-- Sample configuration with the language option set to the one available
bundle of envW. -/
def cfgEn : Config :=
  { cfg0 with language := some "en" }

/-- Build environment with a single registered plugin a (display name A)
that contributed no menu template. -/
def envA : BuildEnv :=
  { platform := .linux, allPlugins := [("a", some "A")], menuTemplates := [],
    languageResources := [], startingPages := [] }

/-- Configuration in which plugin a is enabled. -/
def cfgA : Config :=
  { cfg0 with enabledPlugins := ["a"] }

/-- The Plugins group entry that the builder produces for the enabled,
template-less plugin a of envA. -/
def entryA : MenuItem :=
  .checkboxItem "A" true (.pluginEnabled "a" true true)

/-- Build environment realizing the worked example of the spec: plugins a
(enabled, display name a, contributes one action) and b (disabled,
display name b). -/
def envAB : BuildEnv :=
  { platform := .linux,
    allPlugins := [("b", some "b"), ("a", some "a")],
    menuTemplates := [("a", [.normalItem "action" (some (.hostAction "pluginAction"))])],
    languageResources := [], startingPages := [] }

/- ------------------------------------------------------------------ -/
/- Helper lemmas: comparator order, insertion sort, counting.          -/
/- ------------------------------------------------------------------ -/

theorem boolNotTrue {x : Bool} (h : ¬ x = true) : x = false := by
  cases x
  · rfl
  · exact absurd rfl h

theorem natListLt_cons_self (x : Nat) (xs ys : List Nat) :
    natListLt (x :: xs) (x :: ys) = natListLt xs ys := by
  show (if x < x then true else if x < x then false else natListLt xs ys) = _
  rw [if_neg (lt_irrefl x), if_neg (lt_irrefl x)]

theorem natListLt_irrefl (l : List Nat) : natListLt l l = false := by
  induction l with
  | nil => rfl
  | cons x xs ih => rw [natListLt_cons_self]; exact ih

theorem natListLt_antisymm : ∀ {a b : List Nat},
    natListLt a b = false → natListLt b a = false → a = b := by
  intro a
  induction a with
  | nil =>
    intro b h1 _
    cases b with
    | nil => rfl
    | cons y ys => exact Bool.noConfusion h1
  | cons x xs ih =>
    intro b h1 h2
    cases b with
    | nil => exact Bool.noConfusion h2
    | cons y ys =>
      by_cases hxy : x < y
      · have ht : natListLt (x :: xs) (y :: ys) = true := by
          show (if x < y then true else _) = true
          rw [if_pos hxy]
        rw [ht] at h1
        exact Bool.noConfusion h1
      · by_cases hyx : y < x
        · have ht : natListLt (y :: ys) (x :: xs) = true := by
            show (if y < x then true else _) = true
            rw [if_pos hyx]
          rw [ht] at h2
          exact Bool.noConfusion h2
        · have e : x = y := Nat.le_antisymm (Nat.not_lt.mp hyx) (Nat.not_lt.mp hxy)
          subst e
          rw [natListLt_cons_self] at h1 h2
          rw [ih h1 h2]

theorem natListLt_trans : ∀ (a b c : List Nat),
    natListLt a b = true → natListLt b c = true → natListLt a c = true := by
  intro a
  induction a with
  | nil =>
    intro b c hab hbc
    cases c with
    | nil =>
      cases b with
      | nil => exact Bool.noConfusion hab
      | cons y ys => exact Bool.noConfusion hbc
    | cons z zs => rfl
  | cons x xs ih =>
    intro b c hab hbc
    cases b with
    | nil => exact Bool.noConfusion hab
    | cons y ys =>
      cases c with
      | nil => exact Bool.noConfusion hbc
      | cons z zs =>
        by_cases hxy : x < y
        · by_cases hyz : y < z
          · show (if x < z then true else _) = true
            rw [if_pos (Nat.lt_trans hxy hyz)]
          · by_cases hzy : z < y
            · have hf : natListLt (y :: ys) (z :: zs) = false := by
                show (if y < z then true else if z < y then false else _) = false
                rw [if_neg hyz, if_pos hzy]
              rw [hf] at hbc
              exact Bool.noConfusion hbc
            · have e : y = z := Nat.le_antisymm (Nat.not_lt.mp hzy) (Nat.not_lt.mp hyz)
              subst e
              show (if x < y then true else _) = true
              rw [if_pos hxy]
        · by_cases hyx : y < x
          · have hf : natListLt (x :: xs) (y :: ys) = false := by
              show (if x < y then true else if y < x then false else _) = false
              rw [if_neg hxy, if_pos hyx]
            rw [hf] at hab
            exact Bool.noConfusion hab
          · have e : x = y := Nat.le_antisymm (Nat.not_lt.mp hyx) (Nat.not_lt.mp hxy)
            subst e
            rw [natListLt_cons_self] at hab
            by_cases hxz : x < z
            · show (if x < z then true else _) = true
              rw [if_pos hxz]
            · by_cases hzx : z < x
              · have hf : natListLt (x :: ys) (z :: zs) = false := by
                  show (if x < z then true else if z < x then false else _) = false
                  rw [if_neg hxz, if_pos hzx]
                rw [hf] at hbc
                exact Bool.noConfusion hbc
              · have e2 : x = z := Nat.le_antisymm (Nat.not_lt.mp hzx) (Nat.not_lt.mp hxz)
                subst e2
                rw [natListLt_cons_self] at hbc ⊢
                exact ih ys zs hab hbc

theorem natListLt_asymm {a b : List Nat} (h : natListLt a b = true) :
    natListLt b a = false := by
  by_cases h2 : natListLt b a = true
  · have h3 := natListLt_trans a b a h h2
    rw [natListLt_irrefl] at h3
    exact Bool.noConfusion h3
  · exact boolNotTrue h2

theorem natListLt_le_trans {x y z : List Nat} (hyx : natListLt y x = false)
    (hzy : natListLt z y = false) : natListLt z x = false := by
  by_cases h : natListLt z x = true
  · by_cases hxy : natListLt x y = true
    · have h3 := natListLt_trans z x y h hxy
      rw [hzy] at h3
      exact Bool.noConfusion h3
    · have e : x = y := natListLt_antisymm (boolNotTrue hxy) hyx
      rw [e] at h
      rw [hzy] at h
      exact Bool.noConfusion h
  · exact boolNotTrue h

theorem lcLe_char (a b : String) :
    lcLe a b = true ↔
      (natListLt (ciKey a) (ciKey b) = true
        ∨ (natListLt (ciKey a) (ciKey b) = false
            ∧ natListLt (ciKey b) (ciKey a) = false
            ∧ natListLt (rawKey b) (rawKey a) = false)) := by
  unfold lcLe localeCompare
  by_cases h1 : natListLt (ciKey a) (ciKey b) = true
  · rw [if_pos h1]
    exact iff_of_true rfl (Or.inl h1)
  · rw [if_neg h1]
    have h1f := boolNotTrue h1
    by_cases h2 : natListLt (ciKey b) (ciKey a) = true
    · rw [if_pos h2]
      refine iff_of_false (by decide) ?_
      rintro (h | ⟨_, hf, _⟩)
      · exact h1 h
      · rw [h2] at hf
        exact Bool.noConfusion hf
    · rw [if_neg h2]
      have h2f := boolNotTrue h2
      by_cases h3 : natListLt (rawKey a) (rawKey b) = true
      · rw [if_pos h3]
        exact iff_of_true rfl (Or.inr ⟨h1f, h2f, natListLt_asymm h3⟩)
      · rw [if_neg h3]
        by_cases h4 : natListLt (rawKey b) (rawKey a) = true
        · rw [if_pos h4]
          refine iff_of_false (by decide) ?_
          rintro (h | ⟨_, _, hf⟩)
          · exact h1 h
          · rw [h4] at hf
            exact Bool.noConfusion hf
        · rw [if_neg h4]
          exact iff_of_true rfl (Or.inr ⟨h1f, h2f, boolNotTrue h4⟩)

theorem lcLe_total (a b : String) : lcLe a b = true ∨ lcLe b a = true := by
  rw [lcLe_char, lcLe_char]
  by_cases h1 : natListLt (ciKey a) (ciKey b) = true
  · exact Or.inl (Or.inl h1)
  by_cases h2 : natListLt (ciKey b) (ciKey a) = true
  · exact Or.inr (Or.inl h2)
  have h1f := boolNotTrue h1
  have h2f := boolNotTrue h2
  by_cases h3 : natListLt (rawKey b) (rawKey a) = true
  · exact Or.inr (Or.inr ⟨h2f, h1f, natListLt_asymm h3⟩)
  · exact Or.inl (Or.inr ⟨h1f, h2f, boolNotTrue h3⟩)

theorem lcLe_trans (a b c : String) (hab : lcLe a b = true)
    (hbc : lcLe b c = true) : lcLe a c = true := by
  rw [lcLe_char] at hab hbc ⊢
  rcases hab with h1 | ⟨h1f, h1r, hraw1⟩ <;> rcases hbc with h2 | ⟨h2f, h2r, hraw2⟩
  · exact Or.inl (natListLt_trans _ _ _ h1 h2)
  · have e : ciKey b = ciKey c := natListLt_antisymm h2f h2r
    exact Or.inl (e ▸ h1)
  · have e : ciKey a = ciKey b := natListLt_antisymm h1f h1r
    exact Or.inl (e ▸ h2)
  · have e1 : ciKey a = ciKey b := natListLt_antisymm h1f h1r
    have e2 : ciKey b = ciKey c := natListLt_antisymm h2f h2r
    refine Or.inr ⟨?_, ?_, natListLt_le_trans hraw1 hraw2⟩
    · rw [e1, e2]
      exact natListLt_irrefl _
    · rw [e1, e2]
      exact natListLt_irrefl _

theorem insertBy_perm {α : Type} (le : α → α → Bool) (x : α) (l : List α) :
    (insertBy le x l).Perm (x :: l) := by
  induction l with
  | nil => exact List.Perm.refl _
  | cons y ys ih =>
    simp only [insertBy]
    split_ifs with h
    · exact List.Perm.refl _
    · exact (ih.cons y).trans (List.Perm.swap x y ys)

theorem mem_insertBy {α : Type} (le : α → α → Bool) {x z : α} {l : List α} :
    z ∈ insertBy le x l ↔ z = x ∨ z ∈ l := by
  rw [(insertBy_perm le x l).mem_iff, List.mem_cons]

theorem sortBy_perm {α : Type} (le : α → α → Bool) (l : List α) :
    (sortBy le l).Perm l := by
  induction l with
  | nil => exact List.Perm.refl _
  | cons x xs ih =>
    exact (insertBy_perm le x (sortBy le xs)).trans (ih.cons x)

theorem pairwise_insertBy {α : Type} (le : α → α → Bool)
    (htot : ∀ a b, le a b = true ∨ le b a = true)
    (htr : ∀ a b c, le a b = true → le b c = true → le a c = true)
    (x : α) {l : List α} (h : l.Pairwise (fun a b => le a b = true)) :
    (insertBy le x l).Pairwise (fun a b => le a b = true) := by
  induction l with
  | nil => simp [insertBy]
  | cons y ys ih =>
    rcases List.pairwise_cons.mp h with ⟨hy, hys⟩
    simp only [insertBy]
    split_ifs with hxy
    · refine List.pairwise_cons.mpr ⟨?_, h⟩
      intro z hz
      rcases List.mem_cons.mp hz with rfl | hz
      · exact hxy
      · exact htr x y z hxy (hy z hz)
    · refine List.pairwise_cons.mpr ⟨?_, ih hys⟩
      intro z hz
      rcases (mem_insertBy le).mp hz with rfl | hz
      · rcases htot y z with h1 | h1
        · exact h1
        · exact absurd h1 hxy
      · exact hy z hz

theorem sortBy_pairwise {α : Type} (le : α → α → Bool)
    (htot : ∀ a b, le a b = true ∨ le b a = true)
    (htr : ∀ a b c, le a b = true → le b c = true → le a c = true)
    (l : List α) : (sortBy le l).Pairwise (fun a b => le a b = true) := by
  induction l with
  | nil => simp [sortBy]
  | cons x xs ih => exact pairwise_insertBy le htot htr x ih

theorem countP_eqKey_of_mem {α : Type} [BEq α] [LawfulBEq α] (x : α)
    (l : List α) (hmem : x ∈ l) (hnd : l.Nodup) :
    l.countP (fun y => x == y) = 1 := by
  induction l with
  | nil => cases hmem
  | cons a as ih =>
    rw [List.countP_cons]
    rcases List.mem_cons.mp hmem with rfl | hmem
    · have h0 : as.countP (fun y => x == y) = 0 := by
        rw [List.countP_eq_zero]
        intro z hz
        simp only [beq_iff_eq]
        rintro rfl
        exact (List.nodup_cons.mp hnd).1 hz
      simp [h0]
    · have hxa : x ≠ a := fun h => (List.nodup_cons.mp hnd).1 (h ▸ hmem)
      rw [ih hmem (List.nodup_cons.mp hnd).2]
      simp [hxa]

theorem countP_eqKey_of_notMem {α : Type} [BEq α] [LawfulBEq α] (x : α)
    (l : List α) (h : x ∉ l) : l.countP (fun y => x == y) = 0 := by
  rw [List.countP_eq_zero]
  intro z hz
  simp only [beq_iff_eq]
  rintro rfl
  exact h hz

/- ------------------------------------------------------------------ -/
/- Helper lemmas: structure of the Plugins group.                      -/
/- ------------------------------------------------------------------ -/

theorem menuResultEntry_fst (env : BuildEnv) (cfg : Config)
    (p : String × List MenuItem) : (menuResultEntry env cfg p).1 = p.1 := by
  simp only [menuResultEntry]
  split_ifs <;> rfl

theorem entryToggleClick_menuResult (env : BuildEnv) (cfg : Config) :
    ∀ q ∈ menuResultOf env cfg,
      entryToggleClick q.2 = some (.pluginEnabled q.1 true true) := by
  intro q hq
  rcases List.mem_map.mp hq with ⟨p, _, rfl⟩
  by_cases h : cfg.pluginIsEnabled p.1 = true <;>
    simp [menuResultEntry, h, pluginEnabledMenu, entryToggleClick]

theorem entryPluginId_pluginEntryFor (env : BuildEnv) (cfg : Config)
    (id : String) : entryPluginId (pluginEntryFor env cfg id) = some id := by
  unfold pluginEntryFor
  cases hf : (menuResultOf env cfg).find? (fun it => it.1 == id) with
  | none => simp [entryPluginId, entryToggleClick, pluginEnabledMenu]
  | some q =>
    have h1 : (q.1 == id) = true :=
      List.find?_some (p := fun (it : String × MenuItem) => it.1 == id) hf
    have hq : q ∈ menuResultOf env cfg := List.mem_of_find?_eq_some hf
    have h2 := entryToggleClick_menuResult env cfg q hq
    have h3 : q.1 = id := eq_of_beq h1
    simp [entryPluginId, h2, h3]

theorem filterMap_entryPluginId (env : BuildEnv) (cfg : Config)
    (ids : List String) :
    (ids.map (pluginEntryFor env cfg)).filterMap entryPluginId = ids := by
  induction ids with
  | nil => rfl
  | cons i is ih =>
    simp [List.filterMap_cons, entryPluginId_pluginEntryFor, ih]

theorem pluginEntryFor_lookup (env : BuildEnv) (cfg : Config) (id : String) :
    pluginEntryFor env cfg id =
      match env.menuTemplates.lookup id with
      | some tmpl =>
          if cfg.pluginIsEnabled id then
            .submenuItem (pluginDisplayName env id)
              (pluginEnabledMenu cfg id (t "main.menu.plugins.enabled") true true
                :: .separator :: tmpl)
          else pluginEnabledMenu cfg id (pluginDisplayName env id) true true
      | none => pluginEnabledMenu cfg id (pluginDisplayName env id) true true := by
  unfold pluginEntryFor menuResultOf
  induction env.menuTemplates with
  | nil => rfl
  | cons p rest ih =>
    rcases p with ⟨k, tmpl⟩
    by_cases hk : k = id
    · subst hk
      by_cases he : cfg.pluginIsEnabled k = true <;>
        simp [menuResultEntry, he, List.find?_cons, List.lookup_cons]
    · have hb : (k == id) = false := beq_eq_false_iff_ne.mpr hk
      have hb2 : (id == k) = false :=
        beq_eq_false_iff_ne.mpr (fun h => hk h.symm)
      have hkey : ((menuResultEntry env cfg (k, tmpl)).1 == id) = false := by
        rw [menuResultEntry_fst]
        exact hb
      simp only [List.map_cons, List.find?_cons, List.lookup_cons, hkey, hb2]
      exact ih

/- ------------------------------------------------------------------ -/
/- Claim theorems.                                                     -/
/- ------------------------------------------------------------------ -/

/-- Claim C1, counterexample. The claim includes single-instance-lock
among the boolean configuration paths bound to a checkbox whose checked
field equals the configuration value at build time and tracks toggles
across rebuilds. The single-instance-lock checkbox is built with a
hardcoded checked = true: after the user unchecks it (its new state is
false and the handler releases the lock), rebuilding yields a checkbox
that is checked again, so the checked state does not equal the toggled
value. -/
theorem C1_counterexample :
    (optionsSubmenu env0 st0.config)[4]?
        = some (.checkboxItem (t "main.menu.options.submenu.single-instance-lock")
            true .singleInstanceLockClick)
    ∧ checkedAfterUserClick .checkbox true = false
    ∧ (runClick denv0 .singleInstanceLockClick false st0).1.hasSingleInstanceLock = false
    ∧ (optionsSubmenu env0 (runClick denv0 .singleInstanceLockClick false st0).1.config)[4]?
        = some (.checkboxItem (t "main.menu.options.submenu.single-instance-lock")
            true .singleInstanceLockClick)
    ∧ (true : Bool) ≠ false :=
  ⟨rfl, rfl, rfl, rfl, by decide⟩

/-- Claim C1, amended: for every boolean configuration path that is
two-way bound to a checkbox item, the checkbox built for it carries
checked equal to the configuration value at build time, and toggling the
checkbox (running its handler with the new checked value) then rebuilding
yields a checkbox whose checked state equals the new configuration value.
The single-instance-lock checkbox is excluded: it is not bound to a
configuration path and its checked field is hardcoded true on every
build. -/
theorem C1_bound_checkboxes_reflect_config (env : BuildEnv) (cfg : Config)
    (p : BoolPath) (hp : boundAdmissible env.platform p = true) :
    boundCheckboxItem env cfg p
        = some (.checkboxItem (boundLabel p) (cfg.getBool p) (clickOfBool p))
    ∧ ∀ (denv : DialogEnv) (b : Bool) (s : AppState),
        (runClick denv (clickOfBool p) b s).1.config.getBool p = b
        ∧ boundCheckboxItem env ((runClick denv (clickOfBool p) b s).1.config) p
            = some (.checkboxItem (boundLabel p) b (clickOfBool p)) := by
  rcases env with ⟨pl, ap, mt, lr, sp⟩
  cases p <;> cases pl <;>
    first
      | exact ⟨rfl, fun denv b s => ⟨rfl, rfl⟩⟩
      | exact absurd hp
          (by simp [boundAdmissible, hideMenuIncluded, startAtLoginIncluded])

/-- Witness for C1: the hide-menu checkbox on windows, with the default
configuration. -/
theorem C1_bound_checkboxes_reflect_config_witness :
    boundCheckboxItem envW cfg0 BoolPath.hideMenu
        = some (.checkboxItem (boundLabel .hideMenu) (cfg0.getBool .hideMenu)
            (clickOfBool .hideMenu))
    ∧ ∀ (denv : DialogEnv) (b : Bool) (s : AppState),
        (runClick denv (clickOfBool .hideMenu) b s).1.config.getBool .hideMenu = b
        ∧ boundCheckboxItem envW ((runClick denv (clickOfBool .hideMenu) b s).1.config) .hideMenu
            = some (.checkboxItem (boundLabel .hideMenu) b (clickOfBool .hideMenu)) :=
  C1_bound_checkboxes_reflect_config envW cfg0 .hideMenu (by decide)

/-- Claim C2, counterexample. The claim states that an enabled plugin
with no contributed template still gets the wrapper submenu containing
just the enabled checkbox. In envA the plugin a is enabled and
contributed no template (it has no entry in getAllMenuTemplate), yet its
built Plugins entry is the bare checkbox entryA, not a submenu. -/
theorem C2_counterexample :
    pluginMenusOf envA cfgA = [entryA]
    ∧ entryA.isSubmenu = false
    ∧ cfgA.pluginIsEnabled "a" = true
    ∧ envA.menuTemplates.lookup "a" = none :=
  ⟨rfl, rfl, rfl, rfl⟩

/-- Claim C2, amended: a plugin entry in the Plugins group is a wrapper
submenu (enabled checkbox, separator, contributed fragment) exactly when
the plugin both contributed a template and is enabled; a disabled plugin,
and also an enabled plugin with no contributed template, gets a plain
enablement checkbox. The second conjunct checks the worked example of the
spec: plugins a (enabled, one contributed action) and b (disabled),
sorted by display name. -/
theorem C2_plugin_entry_shape :
    (∀ (env : BuildEnv) (cfg : Config) (id : String),
      pluginEntryFor env cfg id =
        match env.menuTemplates.lookup id with
        | some tmpl =>
            if cfg.pluginIsEnabled id then
              .submenuItem (pluginDisplayName env id)
                (pluginEnabledMenu cfg id (t "main.menu.plugins.enabled") true true
                  :: .separator :: tmpl)
            else pluginEnabledMenu cfg id (pluginDisplayName env id) true true
        | none => pluginEnabledMenu cfg id (pluginDisplayName env id) true true)
    ∧ pluginMenusOf envAB cfgA
        = [ .submenuItem "a"
              [ .checkboxItem "main.menu.plugins.enabled" true (.pluginEnabled "a" true true),
                .separator,
                .normalItem "action" (some (.hostAction "pluginAction")) ],
            .checkboxItem "b" false (.pluginEnabled "b" true true) ] :=
  ⟨fun env cfg id => pluginEntryFor_lookup env cfg id, rfl⟩

/-- Claim C3, counterexample. The set-proxy item is declared with type
normal, so a user click does not change its checked state; with prior
checked state false, cancelling the prompt leaves the configuration
untouched but sets item.checked to true, which is not the prior state the
claim says it reverts to. -/
theorem C3_counterexample :
    (advancedSubmenu env0 cfg0)[0]?
        = some (.normalItem (t "main.menu.options.submenu.advanced-options.submenu.set-proxy.label")
            (some .setProxyClick))
    ∧ checkedAfterUserClick .normal false = false
    ∧ (setProxy none false cfg0).1 = cfg0
    ∧ (setProxy none false cfg0).2 = true
    ∧ (true : Bool) ≠ false :=
  ⟨rfl, rfl, rfl, rfl, by decide⟩

/-- Claim C3, amended: confirming the prompt with a non-empty string
persists it to the proxy path and sets the item checked; confirming with
the empty string persists the empty string and unchecks; cancelling
persists nothing and sets item.checked to the negation of its value at
click time. Because the item has type normal, clicking does not toggle
checked, so the cancel branch inverts the stored flag instead of
restoring the prior state. -/
theorem C3_set_proxy_behaviour (cfg : Config) (ic : Bool) :
    (∀ out : String, out ≠ "" →
      setProxy (some out) ic cfg = ({ cfg with proxy := out }, true))
    ∧ setProxy (some "") ic cfg = ({ cfg with proxy := "" }, false)
    ∧ setProxy none ic cfg = (cfg, !ic)
    ∧ ∀ (denv : DialogEnv) (s : AppState),
        runClick denv .setProxyClick ic s
          = ({ s with config := (setProxy denv.promptResult ic s.config).1 },
             (setProxy denv.promptResult ic s.config).2, [.promptEv]) := by
  refine ⟨?_, rfl, rfl, fun denv s => rfl⟩
  intro out hout
  simp [setProxy, hout]

/-- Witness for C3: confirming with the proxy URL of the spec example
persists it and checks the item. -/
theorem C3_set_proxy_behaviour_witness :
    setProxy (some "http://proxy:8080") false cfg0
      = ({ cfg0 with proxy := "http://proxy:8080" }, true) :=
  (C3_set_proxy_behaviour cfg0 false).1 "http://proxy:8080" (by decide)

/-- Claim C4 is right and the code is wrong: the source guards the write
with if (filePaths), but an array is always truthy in JavaScript, so a
cancelled dialog (empty file-path array) overwrites the prior theme
configuration with the empty list instead of leaving it untouched. -/
theorem C4_cancelled_dialog_overwrites_themes :
    (runClick denv0 .importCssFile false
        { config := { cfg0 with themes := some ["old.css"] },
          hasSingleInstanceLock := true }).1.config.themes
      = some []
    ∧ some ([] : List String) ≠ some ["old.css"]
    ∧ jsTruthyArray [] = true :=
  ⟨rfl, by decide, rfl⟩

/-- Claim C5: for every build, the plugin identifiers carried by the
enablement checkboxes of the Plugins group are a permutation of the
registered plugin identifiers (whatever their enabled state), and they
are ordered by display name under the case-insensitive collation. -/
theorem C5_plugin_set_and_order (env : BuildEnv) (cfg : Config) :
    ((pluginMenusOf env cfg).filterMap entryPluginId).Perm
        (env.allPlugins.map Prod.fst)
    ∧ ((pluginMenusOf env cfg).filterMap entryPluginId).Pairwise
        (fun a b => ciLe (pluginDisplayName env a) (pluginDisplayName env b)) := by
  have hfm : (pluginMenusOf env cfg).filterMap entryPluginId
      = sortBy (fun a b => lcLe (pluginDisplayName env a) (pluginDisplayName env b))
          (env.allPlugins.map Prod.fst) := by
    unfold pluginMenusOf
    exact filterMap_entryPluginId env cfg _
  constructor
  · rw [hfm]
    exact sortBy_perm _ _
  · rw [hfm]
    have hp := sortBy_pairwise
      (fun a b => lcLe (pluginDisplayName env a) (pluginDisplayName env b))
      (fun a b => lcLe_total _ _)
      (fun a b c hab hbc => lcLe_trans _ _ _ hab hbc)
      (env.allPlugins.map Prod.fst)
    refine hp.imp (fun hab => ?_)
    rcases (lcLe_char _ _).mp hab with h | ⟨_, h, _⟩
    · exact natListLt_asymm h
    · exact h

/-- Claim C6, counterexample. The theme group is listed among the
mutually-exclusive radio groups that always contain exactly one checked
item, but it has a single radio item (no-theme, checked only when the
theme list is empty) next to a type-normal import action: after the
reachable selection import-css-file with chosen file a.css, rebuilding
yields zero checked radio items in the theme group. -/
theorem C6_counterexample :
    (runClick (DialogEnv.mk ["a.css"] none) .importCssFile false st0).1.config.themes
        = some ["a.css"]
    ∧ checkedRadioCount
        (themeSubmenu (runClick (DialogEnv.mk ["a.css"] none) .importCssFile false st0).1.config)
        = 0
    ∧ (0 : Nat) ≠ 1 :=
  ⟨rfl, rfl, by decide⟩

/-- Claim C6, amended: the starting-page, like-buttons and tray radio
groups contain exactly one checked radio item for every configuration
reachable by menu selections (value among the values the handlers write,
with distinct registered page names); the theme group contains exactly
one checked radio item when the theme list is empty and none otherwise;
and the language entries, which are checkboxes, contain exactly one
checked item once the configured language is one of the available
bundles. -/
theorem C6_radio_groups :
    (∀ (env : BuildEnv) (cfg : Config),
      (cfg.startingPage = "" ∨ cfg.startingPage ∈ env.startingPages) →
      "" ∉ env.startingPages → env.startingPages.Nodup →
      checkedRadioCount (startingPageSubmenu env cfg) = 1)
    ∧ (∀ cfg : Config,
        (cfg.likeButtons = "" ∨ cfg.likeButtons = "force" ∨ cfg.likeButtons = "hide") →
        checkedRadioCount (likeButtonsSubmenu cfg) = 1)
    ∧ (∀ cfg : Config, checkedRadioCount (traySubmenu cfg) = 1)
    ∧ (∀ cfg : Config,
        checkedRadioCount (themeSubmenu cfg)
          = if cfg.themes.map List.length = some 0 then 1 else 0)
    ∧ (∀ (env : BuildEnv) (cfg : Config) (lang : String),
        cfg.language = some lang →
        lang ∈ env.languageResources.map Prod.fst →
        (env.languageResources.map Prod.fst).Nodup →
        checkedCheckboxCount (languageSubmenu env cfg) = 1) := by
  refine ⟨?_, ?_, ?_, ?_, ?_⟩
  · intro env cfg hmem hnot hnd
    unfold checkedRadioCount startingPageSubmenu
    rw [List.countP_cons]
    have hmap : List.countP isCheckedRadio
        (env.startingPages.map fun name =>
          MenuItem.radioItem name (cfg.startingPage == name) (.startingPageSet name))
        = List.countP (fun name => cfg.startingPage == name) env.startingPages := by
      rw [List.countP_map]
      rfl
    rw [hmap]
    simp only [isCheckedRadio]
    rcases hmem with h | h
    · rw [h, countP_eqKey_of_notMem "" env.startingPages hnot]
      simp
    · have hne : cfg.startingPage ≠ "" := fun he => hnot (he ▸ h)
      rw [countP_eqKey_of_mem cfg.startingPage env.startingPages h hnd]
      simp [hne]
  · intro cfg h
    unfold checkedRadioCount likeButtonsSubmenu
    rcases h with h | h | h <;> rw [h] <;> decide
  · intro cfg
    cases h1 : cfg.tray <;> cases h2 : cfg.appVisible <;>
      simp [checkedRadioCount, traySubmenu, List.countP_cons, isCheckedRadio, h1, h2]
  · intro cfg
    cases h : cfg.themes with
    | none => simp [checkedRadioCount, themeSubmenu, List.countP_cons, isCheckedRadio, h]
    | some l =>
      cases l with
      | nil => simp [checkedRadioCount, themeSubmenu, List.countP_cons, isCheckedRadio, h]
      | cons a as =>
        simp [checkedRadioCount, themeSubmenu, List.countP_cons, isCheckedRadio, h]
  · intro env cfg lang hl hmem hnd
    unfold checkedCheckboxCount languageSubmenu
    have hmap : List.countP isCheckedCheckbox
        (env.languageResources.map fun p =>
          MenuItem.checkboxItem (languageLabel p.2) (cfg.language == some p.1)
            (.languageSelect p.1))
        = List.countP (fun p : String × LangInfo => cfg.language == some p.1)
            env.languageResources := by
      rw [List.countP_map]
      rfl
    rw [hmap, hl]
    have h2 : List.countP (fun p : String × LangInfo => some lang == some p.1)
          env.languageResources
        = List.countP (fun k => lang == k) (env.languageResources.map Prod.fst) := by
      rw [List.countP_map]
      rfl
    rw [h2, countP_eqKey_of_mem lang _ hmem hnd]

/-- Witness for C6: each radio group of the windows build environment
with the default configuration, and the language group with the language
set to the one available bundle. -/
theorem C6_radio_groups_witness :
    checkedRadioCount (startingPageSubmenu envW cfg0) = 1
    ∧ checkedRadioCount (likeButtonsSubmenu cfg0) = 1
    ∧ checkedRadioCount (traySubmenu cfg0) = 1
    ∧ checkedCheckboxCount (languageSubmenu envW cfgEn) = 1 :=
  ⟨C6_radio_groups.1 envW cfg0 (Or.inl rfl) (by decide) (by decide),
   C6_radio_groups.2.1 cfg0 (Or.inl rfl),
   C6_radio_groups.2.2.1 cfg0,
   C6_radio_groups.2.2.2.2 envW cfgEn "en" rfl (by decide) (by decide)⟩

/-- Claim C7, counterexample. The language menu items are declared with
type checkbox in the source, not radio: the single language entry of envW
is a checkbox item. -/
theorem C7_counterexample :
    languageSubmenu envW cfg0
        = [.checkboxItem "English (English)" false (.languageSelect "en")]
    ∧ MenuItem.isRadio (.checkboxItem "English (English)" false (.languageSelect "en"))
        = false :=
  ⟨rfl, rfl⟩

/-- Claim C7, amended: the language menu contains one checkbox item (not
radio) per available language bundle, and selecting a language persists
the choice, triggers the menu rebuild, triggers the language resolver
reload, and shows a confirmation dialog. -/
theorem C7_language_menu (env : BuildEnv) (cfg : Config) :
    (languageSubmenu env cfg).length = env.languageResources.length
    ∧ (∀ p ∈ env.languageResources,
        MenuItem.checkboxItem (languageLabel p.2) (cfg.language == some p.1)
            (.languageSelect p.1)
          ∈ languageSubmenu env cfg)
    ∧ ∀ (lang : String) (denv : DialogEnv) (ic : Bool) (s : AppState),
        runClick denv (.languageSelect lang) ic s
          = ({ s with config := { s.config with language := some lang } }, ic,
             [.refreshMenuEv, .setLanguageEv lang, .messageBoxEv]) := by
  refine ⟨?_, ?_, fun lang denv ic s => rfl⟩
  · unfold languageSubmenu
    exact List.length_map _ _
  · intro p hp
    exact List.mem_map_of_mem _ hp

/-- Witness for C7: the one bundle of envW yields its checkbox entry. -/
theorem C7_language_menu_witness :
    MenuItem.checkboxItem
        (languageLabel { name := "English", localName := "English" })
        (cfg0.language == some "en") (.languageSelect "en")
      ∈ languageSubmenu envW cfg0 :=
  (C7_language_menu envW cfg0).2.1 ("en", { name := "English", localName := "English" })
    (by decide)

/-- Claim C8, counterexample. The hide-menu click handler never sets the
warned flag, so the informational dialog is not shown at most once:
starting from the default state (flag unset, menu shown), the toggle
sequence enable, disable, enable shows the dialog twice. -/
theorem C8_counterexample :
    (let r1 := clickHideMenuItem denv0 (st0, false)
     let r2 := clickHideMenuItem denv0 r1.1
     let r3 := clickHideMenuItem denv0 r2.1
     (r1.2 ++ r2.2 ++ r3.2).countP (fun e => e == Event.messageBoxEv)) = 2
    ∧ (2 : Nat) ≠ 1
    ∧ ¬ (2 ≤ 1) :=
  ⟨rfl, by decide, by decide⟩

/-- Claim C8, amended: enabling the hide-menu checkbox shows the
informational dialog exactly when the warned configuration flag is unset
at click time; the handler never writes the flag, so within this module
nothing prevents the dialog from being shown again on a later enable. -/
theorem C8_hide_menu_dialog (denv : DialogEnv) (s : AppState) (c : Bool) :
    (runClick denv .hideMenuClick c s).2.2
        = (if c && !s.config.hideMenuWarned then [Event.messageBoxEv] else [])
    ∧ (runClick denv .hideMenuClick c s).1.config.hideMenuWarned
        = s.config.hideMenuWarned
    ∧ (runClick denv .hideMenuClick c s).1.config.hideMenu = c :=
  ⟨rfl, rfl, rfl⟩

/-- Claim C9: selecting no-theme writes the empty list to the theme path,
selecting import-css-file with chosen file a.css writes the singleton
list, and the no-theme radio item is built checked exactly when the
configured theme list is present with length zero. -/
theorem C9_theme_selection (cfg : Config) :
    (∀ (denv : DialogEnv) (b : Bool) (s : AppState),
        (runClick denv .noTheme b s).1.config.themes = some [])
    ∧ (∀ (b : Bool) (s : AppState),
        (runClick (DialogEnv.mk ["a.css"] none) .importCssFile b s).1.config.themes
          = some ["a.css"])
    ∧ (themeSubmenu cfg)[0]?
        = some (.radioItem
            (t "main.menu.options.submenu.visual-tweaks.submenu.theme.submenu.no-theme")
            (cfg.themes.map List.length == some 0) .noTheme)
    ∧ ((cfg.themes.map List.length == some 0) = true
        ↔ ∃ l, cfg.themes = some l ∧ l.length = 0) := by
  refine ⟨fun denv b s => rfl, fun b s => rfl, rfl, ?_⟩
  cases h : cfg.themes with
  | none => simp
  | some l => simp

/-- Claim C10: every entry of the built Plugins group carries an
enablement checkbox (either the bare entry or the first child of the
wrapper submenu) whose handler was constructed with hasSubmenu = true and
the refresh callback, so clicking it always emits the menu-rebuild
event. -/
theorem C10_plugin_checkbox_always_refreshes (env : BuildEnv) (cfg : Config)
    (e : MenuItem) (he : e ∈ pluginMenusOf env cfg) :
    ∃ id, entryToggleClick e = some (.pluginEnabled id true true)
      ∧ ∀ (denv : DialogEnv) (b : Bool) (s : AppState),
          (runClick denv (.pluginEnabled id true true) b s).2.2
            = [Event.refreshMenuEv] := by
  rcases List.mem_map.mp he with ⟨id, _, rfl⟩
  refine ⟨id, ?_, fun denv b s => rfl⟩
  unfold pluginEntryFor
  cases hf : (menuResultOf env cfg).find? (fun it => it.1 == id) with
  | none => simp [pluginEnabledMenu, entryToggleClick]
  | some q =>
    have h1 : (q.1 == id) = true :=
      List.find?_some (p := fun (it : String × MenuItem) => it.1 == id) hf
    have hq : q ∈ menuResultOf env cfg := List.mem_of_find?_eq_some hf
    have h2 := entryToggleClick_menuResult env cfg q hq
    rw [h2, eq_of_beq h1]

/-- Witness for C10: the bare checkbox entry of the enabled template-less
plugin a of envA. -/
theorem C10_plugin_checkbox_always_refreshes_witness :
    entryA ∈ pluginMenusOf envA cfgA
    ∧ ∃ id, entryToggleClick entryA = some (.pluginEnabled id true true)
        ∧ ∀ (denv : DialogEnv) (b : Bool) (s : AppState),
            (runClick denv (.pluginEnabled id true true) b s).2.2
              = [Event.refreshMenuEv] := by
  have hm : entryA ∈ pluginMenusOf envA cfgA := by
    rw [show pluginMenusOf envA cfgA = [entryA] from rfl]
    exact List.Mem.head _
  exact ⟨hm, C10_plugin_checkbox_always_refreshes envA cfgA entryA hm⟩

end TuneTrunk
